import Mathlib

/-
  Verification of the scan-orchestrator specification against the source of
  app/main.py (a FastAPI security-scanning service).  The Python source is
  shallowly embedded: pure helpers become Lean functions, the per-session
  mutable dictionary SCAN_STATE becomes an explicit ScanState record, the
  pipeline worker becomes a function from an environment of external step
  outcomes to the resulting state, and the per-target dynamic-scan loop
  becomes a function from a per-target environment (docker build/run/probe
  outcomes) to a trace of the docker operations performed.
  Clock readings (time.time()) are modelled as naturals supplied by the
  environment; the two-decimal rounding of durations is dropped (a duration
  is modelled as the plain difference of the two readings).
-/

namespace DSO

/-- Characters of the first list appear verbatim at the head of the second
list.  Helper for Python's substring operator. -/
def leadsWith : List Char → List Char → Bool
  | [], _ => true
  | _ :: _, [] => false
  | a :: as, b :: bs => a == b && leadsWith as bs

/-- The first list occurs as a contiguous run somewhere in the second list.
Helper for Python's substring operator. -/
def charsContain (needle : List Char) : List Char → Bool
  | [] => needle.isEmpty
  | b :: rest => leadsWith needle (b :: rest) || charsContain needle rest

/-- Python's `needle in hay` on strings (contiguous substring test). -/
def containsSub (hay needle : String) : Bool :=
  charsContain needle.data hay.data

/-- Python's str.lower(), applied characterwise (the severity strings the
scorer lowers are ASCII). -/
def strLower (s : String) : String := String.mk (s.data.map Char.toLower)

/-- One entry of a findings list, as consumed by compute_security_score:
only the two severity keys are read.  `severity` models the "severity" key
and `severityCap` the "Severity" key; a missing key is `none` (Python's
`f.get("severity", f.get("Severity", ""))` falls back per missing key). -/
structure Finding where
  severity : Option String
  severityCap : Option String
deriving Repr, DecidableEq

/-- Effective severity string of a finding:
`str(f.get("severity", f.get("Severity", ""))).lower()`. -/
def Finding.effSev (f : Finding) : String :=
  strLower (f.severity.getD (f.severityCap.getD ""))

/-- One ZAP alert, as consumed by compute_security_score: only "riskdesc"
is read (`alert.get("riskdesc", "")`, so a missing key is ""). -/
structure Alert where
  riskdesc : String
deriving Repr, DecidableEq

/-- One ZAP site: only its "alerts" list is read. -/
structure Site where
  alerts : List Alert
deriving Repr, DecidableEq

/-- The slice of a JSON-dict tool result that compute_security_score reads:
the "results" key (bandit shape), the "Matches" key (secrets-scanner
shape; named matchesKey here because `matches` is reserved in Lean) and
the "site" key (ZAP shape); `none` models an absent key. -/
structure ScanData where
  results : Option (List Finding)
  matchesKey : Option (List Finding)
  site : Option (List Site)
deriving Repr, DecidableEq

/-- A JSON value stored as a step's result: either a dict (projected onto
the keys the scorer reads) or any non-dict value, which the scorer's
`isinstance(data, dict)` guards skip entirely. -/
inductive ToolData where
  | dictData (d : ScanData)
  | otherData
deriving Repr, DecidableEq

/-- The findings list the scorer extracts from a dict result:
`data.get("results", []) or data.get("Matches", [])` — the "Matches"
fallback is used when "results" is missing or maps to an empty list. -/
def ScanData.findings (d : ScanData) : List Finding :=
  let r := d.results.getD []
  if r.isEmpty then d.matchesKey.getD [] else r

/-- Mutable severity counters of compute_security_score. -/
structure Counts where
  high : Nat
  medium : Nat
  low : Nat
deriving Repr, DecidableEq

/-- One pass of the scorer's elif chain over an already-lowercased severity
string: `if "high" in sev: ... elif "medium" in sev: ... elif "low" in
sev: ...`. -/
def bumpSev (c : Counts) (sev : String) : Counts :=
  if containsSub sev "high" then { c with high := c.high + 1 }
  else if containsSub sev "medium" then { c with medium := c.medium + 1 }
  else if containsSub sev "low" then { c with low := c.low + 1 }
  else c

/-- Severity accumulation over one dict-shaped result: first the findings
loop, then (when the "site" key is present) the ZAP site/alert loops. -/
def countDict (c : Counts) (d : ScanData) : Counts :=
  let c1 := d.findings.foldl (fun acc f => bumpSev acc f.effSev) c
  match d.site with
  | none => c1
  | some sites =>
      sites.foldl (fun acc s =>
        s.alerts.foldl (fun a al => bumpSev a (strLower al.riskdesc)) acc) c1

/-- One tool entry of the dict handed to compute_security_score: only its
"result" key is read.  `none` models both a missing "result" key and a
falsy one (`if not tool.get("result"): continue`). -/
structure ToolEntry where
  result : Option ToolData
deriving Repr, DecidableEq

/-- Severity accumulation over one tool entry (the body of the scorer's
outer loop). -/
def countEntry (c : Counts) (e : ToolEntry) : Counts :=
  match e.result with
  | none => c
  | some .otherData => c
  | some (.dictData d) => countDict c d

/-- compute_security_score from app/main.py: fold the counters over every
tool entry, then `score = 100 - (high*10 + medium*5 + low*2);
return max(score, 0)`.  Python ints are unbounded, so Int. -/
def compute_security_score (results : List ToolEntry) : Int :=
  let c := results.foldl countEntry ⟨0, 0, 0⟩
  max (100 - ((c.high : Int) * 10 + (c.medium : Int) * 5 + (c.low : Int) * 2)) 0

/-- Every severity string the scorer inspects for one tool entry, in scan
order (dict findings first, then ZAP alert risk descriptions), each already
lowercased as the scorer does. -/
def ToolEntry.sevStrings (e : ToolEntry) : List String :=
  match e.result with
  | some (.dictData d) =>
      d.findings.map Finding.effSev ++
        (match d.site with
         | some sites => sites.flatMap (fun s => s.alerts.map (fun al => strLower al.riskdesc))
         | none => [])
  | _ => []

/-- A severity string lands in the high bucket. -/
def isHighSev (s : String) : Bool := containsSub s "high"

/-- A severity string lands in the medium bucket (the elif keeps it out of
high first). -/
def isMediumSev (s : String) : Bool := !isHighSev s && containsSub s "medium"

/-- A severity string lands in the low bucket (kept out of high and medium
by the elif chain). -/
def isLowSev (s : String) : Bool :=
  !isHighSev s && !containsSub s "medium" && containsSub s "low"

/-- Number of high-bucket findings across all entries. -/
def highCount (rs : List ToolEntry) : Nat :=
  (rs.flatMap ToolEntry.sevStrings).countP (fun s => isHighSev s)

/-- Number of medium-bucket findings across all entries. -/
def mediumCount (rs : List ToolEntry) : Nat :=
  (rs.flatMap ToolEntry.sevStrings).countP (fun s => isMediumSev s)

/-- Number of low-bucket findings across all entries. -/
def lowCount (rs : List ToolEntry) : Nat :=
  (rs.flatMap ToolEntry.sevStrings).countP (fun s => isLowSev s)

theorem bumpSev_eq (c : Counts) (s : String) :
    bumpSev c s =
      ⟨c.high + (if isHighSev s then 1 else 0),
       c.medium + (if isMediumSev s then 1 else 0),
       c.low + (if isLowSev s then 1 else 0)⟩ := by
  by_cases h1 : containsSub s "high"
  · simp [bumpSev, isHighSev, isMediumSev, isLowSev, h1]
  · by_cases h2 : containsSub s "medium"
    · simp [bumpSev, isHighSev, isMediumSev, isLowSev, h1, h2]
    · by_cases h3 : containsSub s "low" <;>
        simp [bumpSev, isHighSev, isMediumSev, isLowSev, h1, h2, h3]

theorem foldl_bumpSev (ss : List String) (c : Counts) :
    ss.foldl bumpSev c =
      ⟨c.high + ss.countP (fun s => isHighSev s),
       c.medium + ss.countP (fun s => isMediumSev s),
       c.low + ss.countP (fun s => isLowSev s)⟩ := by
  induction ss generalizing c with
  | nil => simp
  | cons a l ih =>
      rw [List.foldl_cons, ih, bumpSev_eq]
      simp only [List.countP_cons, Counts.mk.injEq]
      refine ⟨by omega, by omega, by omega⟩

theorem foldl_alerts (sites : List Site) (c : Counts) :
    sites.foldl (fun acc s =>
        s.alerts.foldl (fun a al => bumpSev a (strLower al.riskdesc)) acc) c =
      List.foldl bumpSev c
        (sites.flatMap (fun s => s.alerts.map (fun al => strLower al.riskdesc))) := by
  induction sites generalizing c with
  | nil => simp
  | cons s rest ih =>
      simp only [List.foldl_cons, List.flatMap_cons, List.foldl_append, List.foldl_map]
      exact ih _

theorem countDict_eq (c : Counts) (d : ScanData) :
    countDict c d =
      List.foldl bumpSev c
        (d.findings.map Finding.effSev ++
          (match d.site with
           | some sites =>
               sites.flatMap (fun s => s.alerts.map (fun al => strLower al.riskdesc))
           | none => [])) := by
  rcases d with ⟨dres, dmat, dsite⟩
  rcases dsite with _ | sites
  · simp only [countDict, List.append_nil, List.foldl_map]
  · simp only [countDict, List.foldl_append, List.foldl_map]
    exact foldl_alerts sites _

theorem countEntry_eq (c : Counts) (e : ToolEntry) :
    countEntry c e =
      ⟨c.high + e.sevStrings.countP (fun s => isHighSev s),
       c.medium + e.sevStrings.countP (fun s => isMediumSev s),
       c.low + e.sevStrings.countP (fun s => isLowSev s)⟩ := by
  rcases e with ⟨res⟩
  rcases res with _ | td
  · simp [countEntry, ToolEntry.sevStrings]
  rcases td with d | _
  · show countDict c d = _
    rw [countDict_eq, foldl_bumpSev]
    rfl
  · simp [countEntry, ToolEntry.sevStrings]

theorem foldl_countEntry (rs : List ToolEntry) (c : Counts) :
    rs.foldl countEntry c =
      ⟨c.high + highCount rs, c.medium + mediumCount rs, c.low + lowCount rs⟩ := by
  induction rs generalizing c with
  | nil => simp [highCount, mediumCount, lowCount]
  | cons e l ih =>
      rw [List.foldl_cons, ih, countEntry_eq]
      simp only [highCount, mediumCount, lowCount, List.flatMap_cons, List.countP_append]
      simp [Nat.add_assoc]

/-- A concrete tool entry with two high, one medium and three low findings
(drawn from both severity-key spellings). -/
def exampleEntry : ToolEntry :=
  ⟨some (.dictData
    ⟨some [⟨some "HIGH", none⟩, ⟨none, some "high"⟩, ⟨some "Medium", none⟩,
           ⟨some "LOW", none⟩, ⟨some "low", none⟩, ⟨some "Low", none⟩],
     none, none⟩)⟩

/-- A concrete tool entry whose structured result holds no findings. -/
def exampleEmpty : ToolEntry := ⟨some (.dictData ⟨some [], none, none⟩)⟩

/-- C1: compute_security_score returns max(0, 100 − (10·high + 5·medium +
2·low)) where high/medium/low count the findings whose (lowercased)
severity falls in that bucket across all structured results, unrecognized
or missing severities counting in no bucket; the counts {high: 2,
medium: 1, low: 3} yield 69 and zero findings yield 100.  Determinism given
identical finding counts is the formula itself: the score is a function of
the three counts alone. -/
theorem score_claim :
    (∀ rs : List ToolEntry,
        compute_security_score rs =
          max (100 - ((highCount rs : Int) * 10 + (mediumCount rs : Int) * 5 +
            (lowCount rs : Int) * 2)) 0)
    ∧ compute_security_score [exampleEntry] = 69
    ∧ compute_security_score [exampleEmpty] = 100 := by
  have hmain : ∀ rs : List ToolEntry,
      compute_security_score rs =
        max (100 - ((highCount rs : Int) * 10 + (mediumCount rs : Int) * 5 +
          (lowCount rs : Int) * 2)) 0 := by
    intro rs
    unfold compute_security_score
    rw [foldl_countEntry]
    simp
  refine ⟨hmain, ?_, ?_⟩
  · rw [hmain]
    have h1 : highCount [exampleEntry] = 2 := by decide
    have h2 : mediumCount [exampleEntry] = 1 := by decide
    have h3 : lowCount [exampleEntry] = 3 := by decide
    rw [h1, h2, h3]
    norm_num
  · rw [hmain]
    have h1 : highCount [exampleEmpty] = 0 := by decide
    have h2 : mediumCount [exampleEmpty] = 0 := by decide
    have h3 : lowCount [exampleEmpty] = 0 := by decide
    rw [h1, h2, h3]
    norm_num

/-- A directory tree as os.walk sees it: the files directly in the
directory and the named subdirectories.  The workspace root is the tree's
root node; its own name is irrelevant to the walked relative paths. -/
inductive FSTree where
  | node (files : List String) (subdirs : List (String × FSTree))
deriving Repr

/-- Files of the root node. -/
def FSTree.files : FSTree → List String
  | .node fs _ => fs

/-- Subdirectories of the root node. -/
def FSTree.subdirs : FSTree → List (String × FSTree)
  | .node _ sd => sd

mutual

/-- detect_all_targets from app/main.py, on the tree below `path`:
os.walk in top-down preorder, appending the current root whenever
"Dockerfile" is among its files.  Paths are returned relative to the
workspace root as component lists. -/
def dtWalk (path : List String) (t : FSTree) : List (List String) :=
  match t with
  | .node files subs =>
      (if files.contains "Dockerfile" then [path] else []) ++ dtWalkList path subs

/-- The walk over a list of subdirectories, in order. -/
def dtWalkList (path : List String) (l : List (String × FSTree)) : List (List String) :=
  match l with
  | [] => []
  | (n, c) :: rest => dtWalk (path ++ [n]) c ++ dtWalkList path rest

end

/-- detect_all_targets(path) of app/main.py applied to a workspace tree. -/
def detect_all_targets (t : FSTree) : List (List String) := dtWalk [] t

mutual

/-- Some directory of the tree (the root included) has `fname` among its
files.  Spec-side helper, independent of the walk. -/
def hasFileAnywhere (fname : String) (t : FSTree) : Bool :=
  match t with
  | .node files subs => files.contains fname || hasFileAnywhereList fname subs

/-- List version of hasFileAnywhere. -/
def hasFileAnywhereList (fname : String) (l : List (String × FSTree)) : Bool :=
  match l with
  | [] => false
  | (_, c) :: rest => hasFileAnywhere fname c || hasFileAnywhereList fname rest

end

mutual

/-- Delete every occurrence of the file `fname` from the whole tree,
leaving the directory structure intact. -/
def stripFile (fname : String) (t : FSTree) : FSTree :=
  match t with
  | .node files subs =>
      .node (files.filter (fun f => f != fname)) (stripFileList fname subs)

/-- List version of stripFile. -/
def stripFileList (fname : String) (l : List (String × FSTree)) : List (String × FSTree) :=
  match l with
  | [] => []
  | (n, c) :: rest => (n, stripFile fname c) :: stripFileList fname rest

end

/-- Modelled from the spec: the workspace classification of spec section
4.3 in its own words — "multi-service manifest present → multi-service;
else single manifest present → single-service; else no-buildable-target".
The multi-service build manifest is a compose file, the single-service
manifest a Dockerfile.  The code has no such classifier; this definition
exists to be compared with what detect_all_targets actually computes. -/
def spec_classify (t : FSTree) : String :=
  if hasFileAnywhere "docker-compose.yml" t then "multi-service"
  else if hasFileAnywhere "Dockerfile" t then "single-service"
  else "no-buildable-target"

mutual

theorem dtWalk_empty_iff (path : List String) (t : FSTree) :
    dtWalk path t = [] ↔ hasFileAnywhere "Dockerfile" t = false := by
  match t with
  | .node files subs =>
      simp only [dtWalk, hasFileAnywhere]
      by_cases h : files.contains "Dockerfile" <;>
        simp [h, dtWalkList_empty_iff path subs]

theorem dtWalkList_empty_iff (path : List String) (l : List (String × FSTree)) :
    dtWalkList path l = [] ↔ hasFileAnywhereList "Dockerfile" l = false := by
  match l with
  | [] => simp [dtWalkList, hasFileAnywhereList]
  | (n, c) :: rest =>
      simp only [dtWalkList, hasFileAnywhereList, List.append_eq_nil]
      rw [dtWalk_empty_iff (path ++ [n]) c, dtWalkList_empty_iff path rest]
      simp

end

theorem filter_ne_contains (files : List String) (fname other : String)
    (h : other ≠ fname) :
    (files.filter (fun f => f != fname)).contains other = files.contains other := by
  have h2 : (other ∈ files.filter (fun f => f != fname)) ↔ other ∈ files := by
    rw [List.mem_filter]
    simp [h]
  simp only [List.contains, List.elem_eq_mem]
  exact decide_eq_decide.mpr h2

mutual

theorem dtWalk_stripFile (fname : String) (h : fname ≠ "Dockerfile")
    (path : List String) (t : FSTree) :
    dtWalk path (stripFile fname t) = dtWalk path t := by
  match t with
  | .node files subs =>
      simp only [stripFile, dtWalk]
      rw [filter_ne_contains files fname "Dockerfile" (fun he => h he.symm)]
      rw [dtWalkList_stripFile fname h path subs]

theorem dtWalkList_stripFile (fname : String) (h : fname ≠ "Dockerfile")
    (path : List String) (l : List (String × FSTree)) :
    dtWalkList path (stripFileList fname l) = dtWalkList path l := by
  match l with
  | [] => rfl
  | (n, c) :: rest =>
      simp only [stripFileList, dtWalkList]
      rw [dtWalk_stripFile fname h (path ++ [n]) c, dtWalkList_stripFile fname h path rest]

end

/-- C5 (amended): target detection consults only Dockerfiles.  A workspace
has no buildable target exactly when no directory of it contains a
Dockerfile, and deleting every multi-service manifest (docker-compose.yml)
from a workspace never changes the detected targets — the classification
never gives a multi-service manifest precedence, it ignores it. -/
theorem dockerfile_only_detection :
    (∀ t : FSTree, detect_all_targets t = [] ↔ hasFileAnywhere "Dockerfile" t = false)
    ∧ (∀ t : FSTree,
        detect_all_targets (stripFile "docker-compose.yml" t) = detect_all_targets t) := by
  constructor
  · intro t
    exact dtWalk_empty_iff [] t
  · intro t
    exact dtWalk_stripFile "docker-compose.yml" (by decide) [] t

/-- The directory names find_env_file refuses to descend into. -/
def ignore_dirs : List String := [".git", "__pycache__", "venv", ".venv", "node_modules"]

mutual

/-- find_env_file's walk from app/main.py: os.walk with in-place pruning of
ignore_dirs, collecting (depth, path-to-.env) for every visited directory
whose files include ".env".  Depth is relative to the workspace root; the
source counts path separators of the absolute root, which orders candidates
identically. -/
def envWalk (depth : Nat) (path : List String) (t : FSTree) : List (Nat × List String) :=
  match t with
  | .node files subs =>
      (if files.contains ".env" then [(depth, path ++ [".env"])] else []) ++
        envWalkList depth path subs

/-- The walk over subdirectories: a subdirectory named in ignore_dirs is
pruned (`dirs[:] = [d for d in dirs if d not in ignore_dirs]`), the others
are entered one level deeper. -/
def envWalkList (depth : Nat) (path : List String) (l : List (String × FSTree)) :
    List (Nat × List String) :=
  match l with
  | [] => []
  | (n, c) :: rest =>
      (if ignore_dirs.contains n then [] else envWalk (depth + 1) (path ++ [n]) c) ++
        envWalkList depth path rest

end

/-- Selection step of find_env_file: `candidates.sort(key=lambda x: x[0])`
is a stable sort, so taking `candidates[0]` afterwards returns the first
candidate in walk order among those of minimal depth; the fold below
computes exactly that element. -/
def pickBest (best x : Nat × List String) : Nat × List String :=
  if x.1 < best.1 then x else best

/-- find_env_file from app/main.py: walk, then return the path of the first
minimal-depth candidate, or none when there is no candidate. -/
def find_env_file (t : FSTree) : Option (List String) :=
  match envWalk 0 [] t with
  | [] => none
  | c :: rest => some (rest.foldl pickBest c).2

/-- Spec-side characterisation of an environment-file candidate: a `.env`
reachable from the root without stepping through a directory whose name is
in ignore_dirs, together with its depth. -/
inductive EnvCand : FSTree → Nat → List String → Prop where
  | here {files : List String} {subs : List (String × FSTree)} :
      files.contains ".env" = true → EnvCand (.node files subs) 0 [".env"]
  | deeper {files : List String} {subs : List (String × FSTree)}
      {n : String} {c : FSTree} {d : Nat} {p : List String} :
      (n, c) ∈ subs → ignore_dirs.contains n = false →
      EnvCand c d p → EnvCand (.node files subs) (d + 1) (n :: p)

mutual

theorem envWalk_mem (k : Nat) (pre : List String) (t : FSTree) (dd : Nat) (pp : List String) :
    (dd, pp) ∈ envWalk k pre t ↔
      ∃ d p, dd = k + d ∧ pp = pre ++ p ∧ EnvCand t d p := by
  match t with
  | .node files subs =>
      simp only [envWalk, List.mem_append]
      constructor
      · rintro (hin | hin)
        · by_cases hc : files.contains ".env"
          · rw [if_pos hc] at hin
            have h := List.mem_singleton.mp hin
            refine ⟨0, [".env"], ?_, ?_, EnvCand.here hc⟩
            · have := congrArg Prod.fst h
              simpa using this
            · have := congrArg Prod.snd h
              simpa using this
          · rw [if_neg hc] at hin
            cases hin
        · rcases (envWalkList_mem k pre subs dd pp).mp hin with
            ⟨n, c, d, p, hmem, hig, hcand, hdd, hpp⟩
          refine ⟨d + 1, n :: p, by omega, ?_, EnvCand.deeper hmem hig hcand⟩
          simpa [List.append_assoc] using hpp
      · rintro ⟨d, p, rfl, rfl, hcand⟩
        cases hcand with
        | here hc =>
            left
            rw [if_pos hc]
            exact List.mem_singleton.mpr (by simp)
        | deeper hmem hig hsub =>
            right
            exact (envWalkList_mem k pre subs _ _).mpr
              ⟨_, _, _, _, hmem, hig, hsub, by omega, by simp⟩

theorem envWalkList_mem (k : Nat) (pre : List String) (l : List (String × FSTree))
    (dd : Nat) (pp : List String) :
    (dd, pp) ∈ envWalkList k pre l ↔
      ∃ n c d p, (n, c) ∈ l ∧ ignore_dirs.contains n = false ∧ EnvCand c d p ∧
        dd = k + 1 + d ∧ pp = pre ++ n :: p := by
  match l with
  | [] => simp [envWalkList]
  | (n, c) :: rest =>
      simp only [envWalkList, List.mem_append]
      constructor
      · rintro (hin | hin)
        · by_cases hig : ignore_dirs.contains n
          · rw [if_pos hig] at hin
            cases hin
          · rw [if_neg hig] at hin
            rcases (envWalk_mem (k + 1) (pre ++ [n]) c dd pp).mp hin with ⟨d, p, hdd, hpp, hcand⟩
            refine ⟨n, c, d, p, List.mem_cons_self _ _, by simpa using hig, hcand, by omega, ?_⟩
            simpa [List.append_assoc] using hpp
        · rcases (envWalkList_mem k pre rest dd pp).mp hin with
            ⟨n', c', d, p, hmem, hig, hcand, hdd, hpp⟩
          exact ⟨n', c', d, p, List.mem_cons_of_mem _ hmem, hig, hcand, hdd, hpp⟩
      · rintro ⟨n', c', d, p, hmem, hig, hcand, hdd, hpp⟩
        rcases List.mem_cons.mp hmem with he | hm
        · injection he with hn hc
          subst hn
          subst hc
          left
          rw [if_neg (by simpa using hig)]
          exact (envWalk_mem (k + 1) (pre ++ [n']) c' dd pp).mpr
            ⟨d, p, by omega, by simp [hpp], hcand⟩
        · right
          exact (envWalkList_mem k pre rest dd pp).mpr ⟨n', c', d, p, hm, hig, hcand, hdd, hpp⟩

end

theorem envWalk_root_mem (t : FSTree) (dd : Nat) (pp : List String) :
    (dd, pp) ∈ envWalk 0 [] t ↔ EnvCand t dd pp := by
  rw [envWalk_mem]
  constructor
  · rintro ⟨d, p, rfl, rfl, hc⟩
    simpa using hc
  · intro hc
    exact ⟨dd, pp, by omega, by simp, hc⟩

theorem envCand_avoids (t : FSTree) (d : Nat) (p : List String) (h : EnvCand t d p) :
    p.all (fun comp => !ignore_dirs.contains comp) = true := by
  induction h with
  | here _ => decide
  | deeper hmem hig hsub ih =>
      simp only [List.all_cons, ih, Bool.and_true, hig]
      rfl

theorem foldl_pickBest_mem (c : Nat × List String) (l : List (Nat × List String)) :
    l.foldl pickBest c = c ∨ l.foldl pickBest c ∈ l := by
  induction l generalizing c with
  | nil => exact Or.inl rfl
  | cons x rest ih =>
      rw [List.foldl_cons]
      rcases ih (pickBest c x) with h | h
      · rw [h]
        unfold pickBest
        by_cases hx : x.1 < c.1
        · right
          simp [hx]
        · left
          simp [hx]
      · right
        exact List.mem_cons_of_mem x h

theorem foldl_pickBest_le (c : Nat × List String) (l : List (Nat × List String)) :
    (l.foldl pickBest c).1 ≤ c.1 ∧ ∀ x ∈ l, (l.foldl pickBest c).1 ≤ x.1 := by
  induction l generalizing c with
  | nil =>
      refine ⟨Nat.le_refl _, ?_⟩
      intro x hx
      cases hx
  | cons x rest ih =>
      rw [List.foldl_cons]
      obtain ⟨h1, h2⟩ := ih (pickBest c x)
      have hcx : (pickBest c x).1 ≤ c.1 ∧ (pickBest c x).1 ≤ x.1 := by
        by_cases hx : x.1 < c.1 <;> simp [pickBest, hx] <;> omega
      refine ⟨le_trans h1 hcx.1, ?_⟩
      intro y hy
      rcases List.mem_cons.mp hy with rfl | hy'
      · exact le_trans h1 hcx.2
      · exact h2 y hy'

/-- C8: find_env_file returns the shallowest .env reachable without
entering any excluded dependency/metadata directory: a returned path is a
candidate (so no component of it is an excluded directory name — a .env
inside an excluded directory is never selected, however shallow), its depth
is minimal among all candidates, and the result is none exactly when no
candidate exists. -/
theorem env_file_selection :
    ∀ t : FSTree,
      ((∀ d p, ¬ EnvCand t d p) ↔ find_env_file t = none)
      ∧ ∀ p, find_env_file t = some p →
          p.all (fun comp => !ignore_dirs.contains comp) = true
          ∧ ∃ d, EnvCand t d p ∧ ∀ d' q, EnvCand t d' q → d ≤ d' := by
  intro t
  cases hL : envWalk 0 [] t with
  | nil =>
      constructor
      · constructor
        · intro _
          simp [find_env_file, hL]
        · intro _ d p hc
          have hmem := (envWalk_root_mem t d p).mpr hc
          rw [hL] at hmem
          cases hmem
      · intro p hp
        simp [find_env_file, hL] at hp
  | cons c rest =>
      have hbestmem : (rest.foldl pickBest c) ∈ envWalk 0 [] t := by
        rw [hL]
        rcases foldl_pickBest_mem c rest with h | h
        · rw [h]
          exact List.mem_cons_self _ _
        · exact List.mem_cons_of_mem _ h
      have hbestcand : EnvCand t (rest.foldl pickBest c).1 (rest.foldl pickBest c).2 :=
        (envWalk_root_mem t _ _).mp hbestmem
      have hmin : ∀ d' q, EnvCand t d' q → (rest.foldl pickBest c).1 ≤ d' := by
        intro d' q hc'
        have hm : (d', q) ∈ c :: rest := by
          rw [← hL]
          exact (envWalk_root_mem t d' q).mpr hc'
        obtain ⟨h1, h2⟩ := foldl_pickBest_le c rest
        rcases List.mem_cons.mp hm with he | hm'
        · simpa [← he] using h1
        · simpa using h2 _ hm'
      constructor
      · constructor
        · intro hno
          exact absurd hbestcand (hno _ _)
        · intro hnone
          simp [find_env_file, hL] at hnone
      · intro p hp
        have hpeq : (rest.foldl pickBest c).2 = p := by
          simpa [find_env_file, hL] using hp
        subst hpeq
        exact ⟨envCand_avoids _ _ _ hbestcand, ⟨_, hbestcand, hmin⟩⟩

/-- Concrete workspace for the C8 witness: a .env hidden inside the
excluded .git directory at depth 1 and a selectable one at depth 2. -/
def envWitTree : FSTree :=
  .node [] [(".git", .node [".env"] []), ("a", .node [] [("b", .node [".env"] [])])]

/-- Witness for C8 at a concrete tree: the selected path is a/b/.env, it
avoids every excluded directory, and its depth is minimal among
candidates — the depth-1 .env inside .git is ignored. -/
theorem env_file_selection_wit :
    (["a", "b", ".env"] : List String).all (fun comp => !ignore_dirs.contains comp) = true
    ∧ ∃ d, EnvCand envWitTree d ["a", "b", ".env"]
        ∧ ∀ d' q, EnvCand envWitTree d' q → d ≤ d' :=
  (env_file_selection envWitTree).2 ["a", "b", ".env"] (by decide)

/-- One step's dict inside SCAN_STATE[id]["steps"]: status, start_time,
duration, and the "result" key that run_step adds on success (absent —
`none` — until then; run_step never writes a "skipped" or "failed"
status, and no other code writes step statuses at all). -/
structure StepRecord where
  status : String
  start_time : Option Nat
  duration : Option Nat
  result : Option ToolData
deriving Repr, DecidableEq

/-- A step as init_scan creates it. -/
def pendingStep : StepRecord := ⟨"pending", none, none, none⟩

/-- The four fixed steps dict of a session, in insertion order. -/
structure Steps where
  bandit : StepRecord
  gitleaks : StepRecord
  trivy : StepRecord
  dast : StepRecord
deriving Repr, DecidableEq

/-- One session's entry of SCAN_STATE.  Timestamps are clock readings
(naturals); `containers` is the list of container names the dast step
registered (cleanup_scan force-removes these on the docker side but never
clears the list itself). -/
structure ScanState where
  current : String
  progress : Nat
  containers : List String
  cancelled : Bool
  score : Option Int
  start_time : Nat
  end_time : Option Nat
  total_duration : Option Nat
  steps : Steps
deriving Repr, DecidableEq

/-- init_scan from app/main.py, at creation clock `t`. -/
def init_scan (t : Nat) : ScanState :=
  { current := "waiting", progress := 0, containers := [], cancelled := false,
    score := none, start_time := t, end_time := none, total_duration := none,
    steps := ⟨pendingStep, pendingStep, pendingStep, pendingStep⟩ }

/-- Names of the four pipeline steps. -/
inductive StepName where
  | bandit
  | gitleaks
  | trivy
  | dast
deriving Repr, DecidableEq

/-- Environment of one step execution: the clock reading run_step captures
at its start, and the executor's outcome — `some (endTime, data)` when the
tool call returns `data` at clock `endTime`, `none` when it raises
(subprocess/docker/json errors or a timeout).  run_pipeline installs no
exception handler, so a raise kills the worker thread. -/
structure StepSpec where
  startTime : Nat
  outcome : Option (Nat × ToolData)

/-- Environment of one whole pipeline run: the four step executions plus
the clock reading taken after the last step for end_time. -/
structure PipelineEnv where
  bandit : StepSpec
  gitleaks : StepSpec
  trivy : StepSpec
  dast : StepSpec
  finishTime : Nat

/-- The step dict right after run_step marked it running and stored its
start time (the executor is invoked in this state). -/
def runningRec (startT : Nat) (old : StepRecord) : StepRecord :=
  { old with status := "running", start_time := some startT }

/-- The step dict after run_step's final update on executor success:
status done, duration, result. -/
def doneRec (startT endT : Nat) (data : ToolData) (old : StepRecord) : StepRecord :=
  { old with status := "done", start_time := some startT, duration := some (endT - startT), result := some data }

/-- Projection of a step dict onto what compute_security_score reads. -/
def StepRecord.toEntry (r : StepRecord) : ToolEntry := ⟨r.result⟩

/-- Outcome of one worker run: the session state when the worker thread
ends (normally or by an uncaught executor exception), the steps whose
executor was actually invoked in order, and how many times the worker
assigned the session's score field. -/
structure PipeResult where
  state : ScanState
  executed : List StepName
  scoreWrites : Nat
deriving Repr, DecidableEq

/-- run_pipeline from app/main.py (archive extraction, a collaborator,
elided): the four run_step calls in fixed order with the 25/50/75/100
progress checkpoints, then the single score computation over the step
dicts, end_time, total_duration, phase finished, and cleanup_scan (a
docker-side effect that leaves the session state untouched).  There is no
exception handling and no cancellation check anywhere in the worker: a
raising executor leaves its step marked running, later steps pending, and
the remaining code unexecuted. -/
def run_pipeline (env : PipelineEnv) (s0 : ScanState) : PipeResult :=
  match env.bandit.outcome with
  | none =>
      let stb := { s0.steps with bandit := runningRec env.bandit.startTime s0.steps.bandit }
      { state := { s0 with current := "bandit", steps := stb }, executed := [.bandit], scoreWrites := 0 }
  | some (tb, db) =>
    let s1 : ScanState := { s0 with current := "bandit", progress := 25, steps := { s0.steps with bandit := doneRec env.bandit.startTime tb db s0.steps.bandit } }
    match env.gitleaks.outcome with
    | none =>
        let stg := { s1.steps with gitleaks := runningRec env.gitleaks.startTime s1.steps.gitleaks }
        { state := { s1 with current := "gitleaks", steps := stg }, executed := [.bandit, .gitleaks], scoreWrites := 0 }
    | some (tg, dg) =>
      let s2 : ScanState := { s1 with current := "gitleaks", progress := 50, steps := { s1.steps with gitleaks := doneRec env.gitleaks.startTime tg dg s1.steps.gitleaks } }
      match env.trivy.outcome with
      | none =>
          let stt := { s2.steps with trivy := runningRec env.trivy.startTime s2.steps.trivy }
          { state := { s2 with current := "trivy", steps := stt }, executed := [.bandit, .gitleaks, .trivy], scoreWrites := 0 }
      | some (tt, dt) =>
        let s3 : ScanState := { s2 with current := "trivy", progress := 75, steps := { s2.steps with trivy := doneRec env.trivy.startTime tt dt s2.steps.trivy } }
        match env.dast.outcome with
        | none =>
            let std := { s3.steps with dast := runningRec env.dast.startTime s3.steps.dast }
            { state := { s3 with current := "dast", steps := std }, executed := [.bandit, .gitleaks, .trivy, .dast], scoreWrites := 0 }
        | some (td, dd) =>
          let s4 : ScanState := { s3 with current := "dast", progress := 100, steps := { s3.steps with dast := doneRec env.dast.startTime td dd s3.steps.dast } }
          let sc := compute_security_score [s4.steps.bandit.toEntry, s4.steps.gitleaks.toEntry, s4.steps.trivy.toEntry, s4.steps.dast.toEntry]
          { state := { s4 with score := some sc, end_time := some env.finishTime, total_duration := some (env.finishTime - s4.start_time), current := "finished" }, executed := [.bandit, .gitleaks, .trivy, .dast], scoreWrites := 1 }

/-- cancel from app/main.py, on a known session: set the cancellation
flag, force-remove tracked containers on the docker side (no session-state
effect), set phase cancelled.  It never touches the score and never checks
whether the session already finished. -/
def cancel (s : ScanState) : ScanState :=
  { s with cancelled := true, current := "cancelled" }

/-- The in-place step-duration recomputation of the status() poller:
`if step_data["status"] == "running" and step_data["start_time"]:` — the
start_time truthiness test also excludes a zero reading — then the elapsed
duration replaces the stored one. -/
def liveStep (clock : Nat) (r : StepRecord) : StepRecord :=
  match r.start_time with
  | none => r
  | some st =>
      if r.status = "running" ∧ st ≠ 0 then { r with duration := some (clock - st) } else r

/-- status() from app/main.py, on a known session at poll clock `clock`.
Returns (response, stored-session-after-the-poll).  The source does
`response_data = scan_data.copy()`, a SHALLOW copy: the top-level dict is
fresh, so the `response_data["total_duration"] = ...` write reaches the
response only; but `response_data["steps"]` is the very steps dict of the
registry, so the per-step duration writes
(`response_data["steps"][name]["duration"] = ...`) land in the shared step
dicts and are visible through the stored session as well. -/
def status (clock : Nat) (s : ScanState) : ScanState × ScanState :=
  let newSteps : Steps :=
    ⟨liveStep clock s.steps.bandit, liveStep clock s.steps.gitleaks,
     liveStep clock s.steps.trivy, liveStep clock s.steps.dast⟩
  ({ s with
      total_duration := if s.end_time = none then some (clock - s.start_time) else s.total_duration,
      steps := newSteps },
   { s with steps := newSteps })

/-- A step environment whose executor returns an empty structured result. -/
def specOk (st en : Nat) : StepSpec := ⟨st, some (en, ToolData.dictData ⟨none, none, none⟩)⟩

/-- A step environment whose executor raises. -/
def specRaise (st : Nat) : StepSpec := ⟨st, none⟩

/-- A run in which every executor succeeds. -/
def envAllOk : PipelineEnv := ⟨specOk 1 2, specOk 2 3, specOk 3 4, specOk 4 5, 6⟩

/-- A run in which the first static executor (bandit) raises. -/
def envBanditFails : PipelineEnv := ⟨specRaise 1, specOk 2 3, specOk 3 4, specOk 4 5, 6⟩

/-- C2 counterexample: in a run whose bandit executor fails, the dast
step's status is NOT "skipped" — it stays exactly "pending" (in
particular not "skipped", "running" or "done"): the worker thread dies,
leaving the failed step itself stuck at "running"; no code in the
repository ever writes a "skipped" status. -/
theorem static_failure_no_skip_cex :
    (run_pipeline envBanditFails (init_scan 0)).state.steps.dast.status = "pending"
    ∧ (run_pipeline envBanditFails (init_scan 0)).state.steps.bandit.status = "running" := by
  refine ⟨by decide, by decide⟩

/-- C2 (amended): when a static step (bandit, gitleaks or trivy) fails,
the dynamic step is indeed never attempted and never reaches running or
done — but not by a skip policy: the uncaught exception kills the worker,
so dast's status remains "pending" (not "skipped") and its executor never
runs. -/
theorem static_failure_halts (env : PipelineEnv) (t : Nat)
    (h : env.bandit.outcome = none ∨ env.gitleaks.outcome = none ∨ env.trivy.outcome = none) :
    (run_pipeline env (init_scan t)).state.steps.dast.status = "pending"
    ∧ StepName.dast ∉ (run_pipeline env (init_scan t)).executed := by
  cases hb : env.bandit.outcome with
  | none =>
      constructor
      · simp [run_pipeline, hb, init_scan, pendingStep]
      · simp [run_pipeline, hb]
  | some vb =>
      obtain ⟨tb, db⟩ := vb
      cases hg : env.gitleaks.outcome with
      | none =>
          constructor
          · simp [run_pipeline, hb, hg, init_scan, pendingStep]
          · simp [run_pipeline, hb, hg]
      | some vg =>
          obtain ⟨tg, dg⟩ := vg
          cases ht : env.trivy.outcome with
          | none =>
              constructor
              · simp [run_pipeline, hb, hg, ht, init_scan, pendingStep]
              · simp [run_pipeline, hb, hg, ht]
          | some vt =>
              rcases h with h | h | h
              · rw [h] at hb
                cases hb
              · rw [h] at hg
                cases hg
              · rw [h] at ht
                cases ht

/-- Witness for the amended C2 at a concrete failing run. -/
theorem static_failure_halts_wit :
    (run_pipeline envBanditFails (init_scan 0)).state.steps.dast.status = "pending"
    ∧ StepName.dast ∉ (run_pipeline envBanditFails (init_scan 0)).executed :=
  static_failure_halts envBanditFails 0 (Or.inl rfl)

/-- C3 counterexample: with the cancellation flag already set when the
worker reaches the first step boundary, the bandit executor still runs and
the whole pipeline still executes to done — nothing is skipped or
aborted. -/
theorem cancel_flag_ignored_cex :
    StepName.bandit ∈ (run_pipeline envAllOk { init_scan 0 with cancelled := true }).executed
    ∧ (run_pipeline envAllOk { init_scan 0 with cancelled := true }).state.steps.dast.status
        = "done" := by
  constructor
  · decide
  · decide

/-- C3 (amended): the pipeline worker never consults the cancellation
flag.  A run started with the flag set behaves identically — same executed
steps, same step records, same score writes — to the same run without the
flag, differing only in the flag itself; in particular no step is ever
skipped or aborted because of the flag, at any step boundary. -/
theorem cancel_flag_ignored (env : PipelineEnv) (t : Nat) :
    run_pipeline env { init_scan t with cancelled := true } =
      { state := { (run_pipeline env (init_scan t)).state with cancelled := true },
        executed := (run_pipeline env (init_scan t)).executed,
        scoreWrites := (run_pipeline env (init_scan t)).scoreWrites } := by
  cases hb : env.bandit.outcome with
  | none => simp [run_pipeline, hb]
  | some vb =>
      obtain ⟨tb, db⟩ := vb
      cases hg : env.gitleaks.outcome with
      | none => simp [run_pipeline, hb, hg]
      | some vg =>
          obtain ⟨tg, dg⟩ := vg
          cases ht : env.trivy.outcome with
          | none => simp [run_pipeline, hb, hg, ht]
          | some vt =>
              obtain ⟨tt, dt⟩ := vt
              cases hd : env.dast.outcome with
              | none => simp [run_pipeline, hb, hg, ht, hd]
              | some vd =>
                  obtain ⟨td, dd⟩ := vd
                  simp [run_pipeline, hb, hg, ht, hd]

/-- All four steps are done. -/
def allStepsDone (st : Steps) : Prop :=
  st.bandit.status = "done" ∧ st.gitleaks.status = "done"
    ∧ st.trivy.status = "done" ∧ st.dast.status = "done"

/-- C9 counterexample: a reachable state violating "score is set iff phase
is finished": run the pipeline to completion, then hit the cancel
endpoint.  cancel() does not check that the session already finished, so
the phase becomes "cancelled" while the score stays set. -/
theorem cancel_after_finish_cex :
    (cancel (run_pipeline envAllOk (init_scan 0)).state).current = "cancelled"
    ∧ (cancel (run_pipeline envAllOk (init_scan 0)).state).score.isSome = true := by
  constructor
  · decide
  · decide

/-- C9 (amended): within the worker's own run the claim holds — the final
state has the score set iff the phase is finished, the score is written at
most once, and a set score means exactly one write after all four steps
are done — and cancel never mutates the score; but cancel after completion
moves the phase to cancelled while the score stays set, so over all
reachable states "score set iff finished" fails (see the
counterexample). -/
theorem score_lifecycle (env : PipelineEnv) (t : Nat) :
    ((run_pipeline env (init_scan t)).state.score.isSome ↔
      (run_pipeline env (init_scan t)).state.current = "finished")
    ∧ (run_pipeline env (init_scan t)).scoreWrites ≤ 1
    ∧ ((run_pipeline env (init_scan t)).state.score.isSome →
        (run_pipeline env (init_scan t)).scoreWrites = 1
        ∧ allStepsDone (run_pipeline env (init_scan t)).state.steps)
    ∧ (∀ s : ScanState, (cancel s).score = s.score) := by
  have hcancel : ∀ s : ScanState, (cancel s).score = s.score := fun s => rfl
  cases hb : env.bandit.outcome with
  | none => exact ⟨by simp [run_pipeline, hb, init_scan], by simp [run_pipeline, hb, init_scan], by simp [run_pipeline, hb, init_scan], hcancel⟩
  | some vb =>
      obtain ⟨tb, db⟩ := vb
      cases hg : env.gitleaks.outcome with
      | none =>
          exact ⟨by simp [run_pipeline, hb, hg, init_scan], by simp [run_pipeline, hb, hg, init_scan],
            by simp [run_pipeline, hb, hg, init_scan], hcancel⟩
      | some vg =>
          obtain ⟨tg, dg⟩ := vg
          cases ht : env.trivy.outcome with
          | none =>
              exact ⟨by simp [run_pipeline, hb, hg, ht, init_scan], by simp [run_pipeline, hb, hg, ht, init_scan],
                by simp [run_pipeline, hb, hg, ht, init_scan], hcancel⟩
          | some vt =>
              obtain ⟨tt, dt⟩ := vt
              cases hd : env.dast.outcome with
              | none =>
                  exact ⟨by simp [run_pipeline, hb, hg, ht, hd, init_scan],
                    by simp [run_pipeline, hb, hg, ht, hd, init_scan],
                    by simp [run_pipeline, hb, hg, ht, hd, init_scan], hcancel⟩
              | some vd =>
                  obtain ⟨td, dd⟩ := vd
                  refine ⟨by simp [run_pipeline, hb, hg, ht, hd, init_scan],
                    by simp [run_pipeline, hb, hg, ht, hd, init_scan], ?_, hcancel⟩
                  intro _
                  constructor
                  · simp [run_pipeline, hb, hg, ht, hd, init_scan]
                  · simp [run_pipeline, hb, hg, ht, hd, allStepsDone, doneRec]

/-- Witness for the amended C9 at a concrete completed run. -/
theorem score_lifecycle_wit :
    (run_pipeline envAllOk (init_scan 0)).scoreWrites = 1
    ∧ allStepsDone (run_pipeline envAllOk (init_scan 0)).state.steps :=
  (score_lifecycle envAllOk 0).2.2.1 (by decide)

/-- A session state mid-run: the bandit step is running with a captured
start time of 5, nothing finished yet. -/
def pollFixture : ScanState :=
  { current := "bandit", progress := 0, containers := [], cancelled := false,
    score := none, start_time := 0, end_time := none, total_duration := none,
    steps := ⟨⟨"running", some 5, none, none⟩, pendingStep, pendingStep, pendingStep⟩ }

/-- C10 (code bug): polling DOES mutate the stored session.  At poll clock
10 on a session whose bandit step is running since clock 5, the recomputed
duration 5 is written through the shallow copy into the registry's own
step dict: the stored bandit duration changes from none to some 5, so the
stored state after the poll differs from the state before it — despite the
source's own "Return a copy" comment and the spec's single-writer
discipline.  The response side of the claim (live recomputed duration)
does hold. -/
theorem status_mutates_registry :
    (status 10 pollFixture).2.steps.bandit.duration = some 5
    ∧ pollFixture.steps.bandit.duration = none
    ∧ (status 10 pollFixture).1.steps.bandit.duration = some 5 := by
  refine ⟨by decide, by decide, by decide⟩

/-- Environment of one dynamic target's build/launch/probe/scan lifecycle:
the outcome of each external docker/network operation run_dast performs for
it.  `exitedEarly` records whether the launched container exited before
probing — a fact of the environment the code itself never consults.
`probe i p` tells whether the connection attempt to port `p` during outer
probe attempt `i` succeeds.  `reportFile` is the state of report.json after
the scan: `none` absent (the code substitutes an empty dict), `some none`
present but malformed (json.load raises), `some (some d)` parsed as `d`. -/
structure TargetEnv where
  buildOk : Bool
  runOk : Bool
  exposedPorts : Bool
  exitedEarly : Bool
  logs : String
  probe : Nat → Nat → Bool
  zapStartOk : Bool
  zapWaitOk : Bool
  zapLogs : String
  reportFile : Option (Option ToolData)

/-- COMMON_WEB_PORTS from app/main.py. -/
def COMMON_WEB_PORTS : List Nat := [80, 8000, 5000, 3000]

/-- The inner port loop of one probe attempt: the first port whose
connection attempt succeeds. -/
def findFirstPort (f : Nat → Bool) : List Nat → Option Nat
  | [] => none
  | p :: rest => if f p then some p else findFirstPort f rest

/-- The probe loop of run_dast (`for _ in range(30)` with a 1s sleep per
failed attempt): given the current attempt index and the remaining
attempts, the detected port (if any) and the number of outer attempts
executed.  The loop checks ports only — it never checks whether the
container is still running. -/
def probeLoop (env : TargetEnv) : Nat → Nat → Option Nat × Nat
  | attempt, 0 => (none, attempt)
  | attempt, r + 1 =>
      match findFirstPort (fun p => env.probe attempt p) COMMON_WEB_PORTS with
      | some p => (some p, attempt + 1)
      | none => probeLoop env (attempt + 1) r

/-- The per-target entry written into the run_dast results dict:
{"info": "Non-HTTP service detected", "logs"}, {"error": "Service did not
become reachable", "logs"}, {"port", "zap_logs", "report"}, or
{"error": str(e)} from the except handler (exception texts abstracted to
fixed tags). -/
inductive TargetResult where
  | nonHttp (logs : String)
  | unreachable (logs : String)
  | scanned (port : Nat) (zapLogs : String) (report : ToolData)
  | errorResult (msg : String)
deriving Repr, DecidableEq

/-- Trace of the docker operations run_dast performed for one target:
whether the image was built, how many times it was removed, whether the
container was started, how many times it was removed, whether its name
was appended to the session's containers list, whether the ZAP scanner
container was started/removed, and how many outer probe attempts ran. -/
structure TargetTrace where
  result : TargetResult
  imageBuilt : Bool
  imageRemovals : Nat
  containerStarted : Bool
  containerRemovals : Nat
  registered : Bool
  zapStarted : Bool
  zapRemoved : Bool
  probeAttempts : Nat
deriving Repr, DecidableEq

/-- One iteration of run_dast's per-target loop, by exit path.  `carry`
says whether the loop-scoped Python variable `container` is still bound
from an earlier iteration (every earlier iteration that bound it also
removed that container before ending, so a carried binding always refers
to an already-removed container).  Paths, following the source:
build raises → except: `container.remove` hits NameError (unbound) or
NotFound (carried, already removed), the bare except swallows it, and the
image-removal line is never reached — nothing was built, nothing leaks;
launch raises → same except path, but now the image WAS built and its
removal is skipped: the image leaks;
no exposed ports → non-HTTP result with logs, container and image each
removed once, scanner never started;
no port reachable after 30 attempts → unreachable result with logs, both
removed once;
scanner launch raises → except removes the (live) container and the
image once each;
scanner wait times out → except removes container and image; the scanner
container itself is not removed there;
report.json malformed → json.load raises after the scan: same except
cleanup, scanner container not removed;
success → report read (empty dict when the file is absent), scanner, then
container, then image removed.  The second component is the `container`
binding state handed to the next iteration. -/
def runTarget (carry : Bool) (env : TargetEnv) : TargetTrace × Bool :=
  if env.buildOk = false then
    (⟨.errorResult "build failed", false, 0, false, 0, false, false, false, 0⟩, carry)
  else if env.runOk = false then
    (⟨.errorResult "run failed", true, 0, false, 0, false, false, false, 0⟩, carry)
  else if env.exposedPorts = false then
    (⟨.nonHttp env.logs, true, 1, true, 1, true, false, false, 0⟩, true)
  else
    match probeLoop env 0 30 with
    | (none, att) => (⟨.unreachable env.logs, true, 1, true, 1, true, false, false, att⟩, true)
    | (some p, att) =>
      if env.zapStartOk = false then
        (⟨.errorResult "zap start failed", true, 1, true, 1, true, false, false, att⟩, true)
      else if env.zapWaitOk = false then
        (⟨.errorResult "zap wait timeout", true, 1, true, 1, true, true, false, att⟩, true)
      else
        match env.reportFile with
        | some none => (⟨.errorResult "report parse error", true, 1, true, 1, true, true, false, att⟩, true)
        | some (some d) => (⟨.scanned p env.zapLogs d, true, 1, true, 1, true, true, true, att⟩, true)
        | none => (⟨.scanned p env.zapLogs (.dictData ⟨none, none, none⟩), true, 1, true, 1, true, true, true, att⟩, true)

/-- run_dast's whole loop over the detected targets, labelling them
target_1, target_2, ... and threading the `container` variable binding. -/
def runTargetsLoop (envs : Nat → TargetEnv) (idx : Nat) (carry : Bool) :
    List (List String) → List (String × TargetTrace)
  | [] => []
  | _ :: rest =>
      let r := runTarget carry (envs idx)
      ("target_" ++ toString idx, r.1) :: runTargetsLoop envs (idx + 1) r.2 rest

/-- Result of run_dast: the early `{"error": "No Dockerfile found"}` when
detection finds no target, else the per-target results. -/
inductive DastOutcome where
  | noTargets
  | results (rs : List (String × TargetTrace))
deriving Repr, DecidableEq

/-- run_dast from app/main.py over a workspace tree, with the outcome of
each target's external operations supplied by `envs` (indexed by the
1-based target number).  Env-file discovery and the merged environment
passed to `containers.run` affect only the launched process's environment
variables and are elided here. -/
def run_dast (t : FSTree) (envs : Nat → TargetEnv) : DastOutcome :=
  let targets := detect_all_targets t
  if targets.isEmpty then .noTargets
  else .results (runTargetsLoop envs 1 false targets)

/-- A workspace holding only a multi-service manifest (docker-compose.yml)
and no Dockerfile. -/
def composeOnlyTree : FSTree := .node ["docker-compose.yml"] []

/-- A target whose container exited before any probe could succeed
(an exited container accepts no connections, so every probe fails). -/
def crashEnv : TargetEnv :=
  { buildOk := true, runOk := true, exposedPorts := true, exitedEarly := true,
    logs := "crash logs", probe := fun _ _ => false, zapStartOk := true,
    zapWaitOk := true, zapLogs := "", reportFile := none }

/-- A target whose image builds but whose launch raises. -/
def launchFailEnv : TargetEnv :=
  { buildOk := true, runOk := false, exposedPorts := true, exitedEarly := false,
    logs := "", probe := fun _ _ => false, zapStartOk := true,
    zapWaitOk := true, zapLogs := "", reportFile := none }

/-- A healthy target that exposes no network port. -/
def noPortEnv : TargetEnv :=
  { buildOk := true, runOk := true, exposedPorts := false, exitedEarly := false,
    logs := "app output", probe := fun _ _ => false, zapStartOk := true,
    zapWaitOk := true, zapLogs := "", reportFile := none }

/-- A fully healthy target, reachable on port 80 at the first attempt. -/
def fullOkEnv : TargetEnv :=
  { buildOk := true, runOk := true, exposedPorts := true, exitedEarly := false,
    logs := "", probe := fun _ p => p == 80, zapStartOk := true,
    zapWaitOk := true, zapLogs := "zap output", reportFile := none }

/-- C5 counterexample: a workspace containing a multi-service manifest is
NOT classified multi-service by the code — detect_all_targets recognises
only Dockerfiles, finds nothing here, and run_dast reports "No Dockerfile
found", i.e. no-buildable-target, contradicting the claimed precedence. -/
theorem compose_not_detected_cex :
    spec_classify composeOnlyTree = "multi-service"
    ∧ detect_all_targets composeOnlyTree = []
    ∧ run_dast composeOnlyTree (fun _ => fullOkEnv) = .noTargets := by
  refine ⟨by decide, by decide, by decide⟩

/-- C4 counterexample: for a target whose image builds but whose launch
raises (first loop iteration, `container` never bound), teardown does not
run for the image: the except handler's `container.remove` raises
NameError, the bare except swallows it, and `images.remove` is skipped —
the built image is never removed, refuting "teardown (removal of the built
image and the running instance) runs exactly once on every exit path". -/
theorem image_leak_cex :
    (runTarget false launchFailEnv).1.imageBuilt = true
    ∧ (runTarget false launchFailEnv).1.imageRemovals = 0
    ∧ (runTarget false launchFailEnv).1.containerStarted = false
    ∧ (runTarget false launchFailEnv).1.result = .errorResult "run failed" := by
  refine ⟨by decide, by decide, by decide, by decide⟩

theorem probeLoop_all_false (env : TargetEnv) (hp : ∀ i p, env.probe i p = false) :
    ∀ r a, probeLoop env a r = (none, a + r) := by
  intro r
  induction r with
  | zero =>
      intro a
      simp [probeLoop]
  | succ n ih =>
      intro a
      have h2 : a + 1 + n = a + (n + 1) := by omega
      simp [probeLoop, findFirstPort, COMMON_WEB_PORTS, hp, ih (a + 1), h2]

/-- C6 counterexample: a target whose container exits before any probe
succeeds is NOT classified crashed immediately — the probe loop never
checks liveness, runs all 30 attempts, and then reports the unreachable
error with the captured logs. -/
theorem exited_container_unreachable_cex :
    crashEnv.exitedEarly = true
    ∧ (runTarget false crashEnv).1.result = .unreachable "crash logs"
    ∧ (runTarget false crashEnv).1.probeAttempts = 30 := by
  refine ⟨by decide, by decide, by decide⟩

/-- C6 (amended): a launched, port-declaring target none of whose probes
can ever succeed — in particular one whose container has exited — is
classified unreachable ("Service did not become reachable") with its logs
captured, and only after the full 30-attempt probe budget is exhausted;
the runner has no crashed classification and never short-circuits on an
observed exit. -/
theorem dead_probe_exhausts_budget (carry : Bool) (env : TargetEnv)
    (hb : env.buildOk = true) (hr : env.runOk = true) (he : env.exposedPorts = true)
    (hp : ∀ i p, env.probe i p = false) :
    (runTarget carry env).1.result = .unreachable env.logs
    ∧ (runTarget carry env).1.probeAttempts = 30 := by
  have hloop := probeLoop_all_false env hp 30 0
  rw [show (0 + 30 : Nat) = 30 from rfl] at hloop
  constructor <;> simp [runTarget, hb, hr, he, hloop]

/-- Witness for the amended C6 at the concrete exited-container target. -/
theorem dead_probe_exhausts_budget_wit :
    (runTarget false crashEnv).1.result = .unreachable crashEnv.logs
    ∧ (runTarget false crashEnv).1.probeAttempts = 30 :=
  dead_probe_exhausts_budget false crashEnv rfl rfl rfl (fun _ _ => rfl)

/-- C7: a launched target that declares no listening port is classified
"Non-HTTP service detected" with its captured log output as the result,
its container and image are each removed exactly once, and the active
scanner is never started for it. -/
theorem no_ports_skips_scan (carry : Bool) (env : TargetEnv)
    (hb : env.buildOk = true) (hr : env.runOk = true) (he : env.exposedPorts = false) :
    (runTarget carry env).1.result = .nonHttp env.logs
    ∧ (runTarget carry env).1.containerRemovals = 1
    ∧ (runTarget carry env).1.imageRemovals = 1
    ∧ (runTarget carry env).1.zapStarted = false := by
  refine ⟨?_, ?_, ?_, ?_⟩ <;> simp [runTarget, hb, hr, he]

/-- Witness for C7 at the concrete portless target. -/
theorem no_ports_skips_scan_wit :
    (runTarget false noPortEnv).1.result = .nonHttp noPortEnv.logs
    ∧ (runTarget false noPortEnv).1.containerRemovals = 1
    ∧ (runTarget false noPortEnv).1.imageRemovals = 1
    ∧ (runTarget false noPortEnv).1.zapStarted = false :=
  no_ports_skips_scan false noPortEnv rfl rfl rfl

/-- C4 (amended): removal errors are swallowed (every path yields a
per-target result and the loop continues), and once a target's launch
succeeds its container and its image are each removed exactly once on
every exit path — in particular every container registered on the session
is removed inside the dynamic step itself, before the pipeline can reach
the finished phase.  But when the launch raises, the built image is never
removed: the except-path teardown trips over the container variable first
(NameError or NotFound, swallowed) and skips the image removal, so the
image leaks — teardown does not run for it. -/
theorem teardown_amended :
    (∀ (carry : Bool) (env : TargetEnv), env.buildOk = true → env.runOk = true →
      (runTarget carry env).1.containerStarted = true
      ∧ (runTarget carry env).1.registered = true
      ∧ (runTarget carry env).1.containerRemovals = 1
      ∧ (runTarget carry env).1.imageBuilt = true
      ∧ (runTarget carry env).1.imageRemovals = 1)
    ∧ (∀ (carry : Bool) (env : TargetEnv),
        (runTarget carry env).1.registered = true → (runTarget carry env).1.containerRemovals = 1)
    ∧ (∀ (carry : Bool) (env : TargetEnv), env.buildOk = true → env.runOk = false →
        (runTarget carry env).1.imageBuilt = true
        ∧ (runTarget carry env).1.imageRemovals = 0
        ∧ (runTarget carry env).1.containerStarted = false) := by
  have hmain : ∀ (carry : Bool) (env : TargetEnv), env.buildOk = true → env.runOk = true →
      (runTarget carry env).1.containerStarted = true
      ∧ (runTarget carry env).1.registered = true
      ∧ (runTarget carry env).1.containerRemovals = 1
      ∧ (runTarget carry env).1.imageBuilt = true
      ∧ (runTarget carry env).1.imageRemovals = 1 := by
    intro carry env hb hr
    unfold runTarget
    rw [hb, hr]
    simp only [Bool.true_eq_false, if_false]
    by_cases he : env.exposedPorts = false
    · simp [he]
    · simp only [he, if_false]
      rcases hpl : probeLoop env 0 30 with ⟨port, att⟩
      cases port with
      | none => simp
      | some p =>
          by_cases hz : env.zapStartOk = false
          · simp [hz]
          · simp only [hz, if_false]
            by_cases hw : env.zapWaitOk = false
            · simp [hw]
            · simp only [hw, if_false]
              rcases env.reportFile with _ | rf
              · simp
              · rcases rf with _ | d <;> simp
  refine ⟨hmain, ?_, ?_⟩
  · intro carry env hreg
    cases hbv : env.buildOk with
    | false =>
        unfold runTarget at hreg
        rw [hbv] at hreg
        simp at hreg
    | true =>
        cases hrv : env.runOk with
        | false =>
            unfold runTarget at hreg
            rw [hbv, hrv] at hreg
            simp at hreg
        | true => exact (hmain carry env hbv hrv).2.2.1
  · intro carry env hb hr
    unfold runTarget
    rw [hb, hr]
    simp

/-- Witness for the amended C4: the healthy target has its container and
image removed exactly once, and the launch-failure target leaks its
image. -/
theorem teardown_amended_wit :
    ((runTarget false fullOkEnv).1.containerRemovals = 1
      ∧ (runTarget false fullOkEnv).1.imageRemovals = 1)
    ∧ ((runTarget false launchFailEnv).1.imageBuilt = true
      ∧ (runTarget false launchFailEnv).1.imageRemovals = 0) :=
  ⟨⟨(teardown_amended.1 false fullOkEnv rfl rfl).2.2.1,
    (teardown_amended.1 false fullOkEnv rfl rfl).2.2.2.2⟩,
   ⟨(teardown_amended.2.2 false launchFailEnv rfl rfl).1,
    (teardown_amended.2.2 false launchFailEnv rfl rfl).2.1⟩⟩

end DSO
